import Mathlib

/-!
Verification of the quadtree library (`quadtree.go`) against its
natural-language specification.

Shallow embedding conventions:
* Go `float64` coordinates are modelled by `ℚ` (the spec disclaims any
  floating-point robustness concerns; all geometry here is exact field
  arithmetic with division by 2).
* A Go `PhysicalObject` interface value is modelled by a record carrying
  its geometry plus an `oid` field standing for the pointer identity that
  Go's `==` on interface values compares.
* The recursive `Quadtree` struct becomes an inductive type; the Go
  `*list.List` of objects becomes a `List PhysicalObject`, the four child
  pointers become `Option Quadtree` fields, and the `m_ActiveNodes` byte
  is a `Nat` manipulated with the same bit operations as the source.
* Methods that mutate the receiver are embedded in state-passing style:
  they return the updated tree (together with their Go return value).
-/

/-- Geometry of one physical object, plus `oid`, the allocation identity
that models Go pointer equality on the interface value. Field accessors
`x`, `y`, `width`, `height` correspond to the interface methods
`X()`, `Y()`, `Width()`, `Height()` of `PhysicalObject`. -/
structure PhysicalObject where
  oid : Nat
  x : ℚ
  y : ℚ
  width : ℚ
  height : ℚ
deriving DecidableEq, Repr

/-- The `Bounds` struct: a rectangle given by top-left corner and extents. -/
structure Bounds where
  x : ℚ
  y : ℚ
  width : ℚ
  height : ℚ
deriving DecidableEq, Repr

/-- `Bounds.Contains`: the object lies completely within the bounding area;
border overlap is allowed. -/
def Bounds.contains (b : Bounds) (obj : PhysicalObject) : Bool :=
  decide (obj.x ≥ b.x) && decide (obj.y ≥ b.y) &&
  decide (obj.x + obj.width ≤ b.x + b.width) &&
  decide (obj.y + obj.height ≤ b.y + b.height)

/-- `Intersect`: strict overlap test in center-distance form, with the
source's short-circuits when the two objects share an `x` or a `y`
coordinate. -/
def Intersect (one another : PhysicalObject) : Bool :=
  let verticalOverlap :=
    decide (|one.y - another.y| < (one.height + another.height) / 2)
  let horizontalOverlap :=
    decide (|one.x - another.x| < (one.width + another.width) / 2)
  if one.x = another.x then verticalOverlap
  else if one.y = another.y then horizontalOverlap
  else verticalOverlap && horizontalOverlap

/-- The quadrant-classification computed inline by both `Build`
(lines 106–132) and `Insert` (lines 275–297) of the source.  Note the
source's `bottomPart` compares `obj.Y+obj.Height ≤ qt.Height` (not
`≤ qt.Y+qt.Height`) and `rightPart` compares `obj.X+obj.Width ≤ qt.Width`
(not `≤ qt.X+qt.Width`); this definition transcribes the source as is. -/
def quadIndex (b : Bounds) (obj : PhysicalObject) : Int :=
  let horizontalMidpoint := b.x + b.width / 2
  let verticalMidpoint := b.y + b.height / 2
  let topPart := decide (obj.y ≥ b.y) && decide (obj.y + obj.height ≤ verticalMidpoint)
  let bottomPart := decide (obj.y ≥ verticalMidpoint) && decide (obj.y + obj.height ≤ b.height)
  let leftPart := decide (obj.x ≥ b.x) && decide (obj.x + obj.width ≤ horizontalMidpoint)
  let rightPart := decide (obj.x ≥ horizontalMidpoint) && decide (obj.x + obj.width ≤ b.width)
  if topPart then
    if leftPart then 0 else if rightPart then 1 else -1
  else if bottomPart then
    if leftPart then 2 else if rightPart then 3 else -1
  else -1

/-- Modelled from the spec: the intended quadrant classification of §4.2,
whose `bottom` test compares `O.Y+O.Height ≤ Y+Height` and whose `right`
test compares `O.X+O.Width ≤ X+Width`.  This is the spec-side comparator
for the refinement claims; `quadIndex` is the source-side definition. -/
def specQuadIndex (b : Bounds) (obj : PhysicalObject) : Int :=
  let horizontalMidpoint := b.x + b.width / 2
  let verticalMidpoint := b.y + b.height / 2
  let topPart := decide (obj.y ≥ b.y) && decide (obj.y + obj.height ≤ verticalMidpoint)
  let bottomPart := decide (obj.y ≥ verticalMidpoint) && decide (obj.y + obj.height ≤ b.y + b.height)
  let leftPart := decide (obj.x ≥ b.x) && decide (obj.x + obj.width ≤ horizontalMidpoint)
  let rightPart := decide (obj.x ≥ horizontalMidpoint) && decide (obj.x + obj.width ≤ b.x + b.width)
  if topPart then
    if leftPart then 0 else if rightPart then 1 else -1
  else if bottomPart then
    if leftPart then 2 else if rightPart then 3 else -1
  else -1

example : quadIndex ⟨0, -4, 4, 4⟩ ⟨1, 0, -1, 1, 2⟩ = 2 := by norm_num [quadIndex]
example : specQuadIndex ⟨0, -4, 4, 4⟩ ⟨1, 0, -1, 1, 2⟩ = -1 := by norm_num [specQuadIndex]

/-- The `Quadtree` struct.  Constructor argument order follows the Go
struct: bounds, `MaxObjects`, `MaxLevels`, `Level`, `m_Objects`, the four
child slots of `Nodes`, `m_ActiveNodes`, `m_curLife`, `m_maxLifespan`.
The Go parent pointer is not a field here; ancestor chains are recovered
from the path from the root (see `getIntersectedObjects`). -/
inductive Quadtree : Type where
  | node
      (bounds : Bounds)
      (maxObjects maxLevels level : Int)
      (mObjects : List PhysicalObject)
      (node0 node1 node2 node3 : Option Quadtree)
      (mActiveNodes : Nat)
      (mCurLife mMaxLifespan : Int) : Quadtree
deriving Repr

/-- Bounds of a node. -/
def Quadtree.bounds : Quadtree → Bounds
  | .node b _ _ _ _ _ _ _ _ _ _ _ => b

/-- `MaxObjects` of a node. -/
def Quadtree.maxObjects : Quadtree → Int
  | .node _ mo _ _ _ _ _ _ _ _ _ _ => mo

/-- `MaxLevels` of a node. -/
def Quadtree.maxLevels : Quadtree → Int
  | .node _ _ ml _ _ _ _ _ _ _ _ _ => ml

/-- `Level` of a node. -/
def Quadtree.level : Quadtree → Int
  | .node _ _ _ lv _ _ _ _ _ _ _ _ => lv

/-- The `m_Objects` list of a node. -/
def Quadtree.mObjects : Quadtree → List PhysicalObject
  | .node _ _ _ _ objs _ _ _ _ _ _ _ => objs

/-- Child slot `Nodes[0]`. -/
def Quadtree.node0 : Quadtree → Option Quadtree
  | .node _ _ _ _ _ c0 _ _ _ _ _ _ => c0

/-- Child slot `Nodes[1]`. -/
def Quadtree.node1 : Quadtree → Option Quadtree
  | .node _ _ _ _ _ _ c1 _ _ _ _ _ => c1

/-- Child slot `Nodes[2]`. -/
def Quadtree.node2 : Quadtree → Option Quadtree
  | .node _ _ _ _ _ _ _ c2 _ _ _ _ => c2

/-- Child slot `Nodes[3]`. -/
def Quadtree.node3 : Quadtree → Option Quadtree
  | .node _ _ _ _ _ _ _ _ c3 _ _ _ => c3

/-- The `m_ActiveNodes` bit mask. -/
def Quadtree.mActiveNodes : Quadtree → Nat
  | .node _ _ _ _ _ _ _ _ _ mask _ _ => mask

/-- The `m_curLife` counter. -/
def Quadtree.mCurLife : Quadtree → Int
  | .node _ _ _ _ _ _ _ _ _ _ cl _ => cl

/-- The `m_maxLifespan` counter. -/
def Quadtree.mMaxLifespan : Quadtree → Int
  | .node _ _ _ _ _ _ _ _ _ _ _ mls => mls

mutual

/-- DFS list of the objects of a tree in the order `Walk` visits them:
this node's list front to back, then the children in index order, a child
being visited when its `m_ActiveNodes` bit is set (and the slot holds a
node; the source would dereference nil otherwise). -/
def visitObjs : Quadtree → List PhysicalObject
  | .node _ _ _ _ objs c0 c1 c2 c3 mask _ _ =>
    objs ++ childVisit (mask.testBit 0) c0 ++ childVisit (mask.testBit 1) c1
      ++ childVisit (mask.testBit 2) c2 ++ childVisit (mask.testBit 3) c3
termination_by q => sizeOf q

/-- Objects contributed by one child slot of the visit order. -/
def childVisit : Bool → Option Quadtree → List PhysicalObject
  | true, some t => visitObjs t
  | true, none => []
  | false, _ => []
termination_by _ c => sizeOf c

end

example :
    visitObjs (.node ⟨0,0,2,2⟩ 1 1 0 [⟨1,0,0,1,1⟩]
      (some (.node ⟨0,0,1,1⟩ 1 1 1 [⟨2,0,0,1,1⟩] none none none none 0 (-1) 64))
      none none none 1 (-1) 64) = [⟨1,0,0,1,1⟩, ⟨2,0,0,1,1⟩] := by
  norm_num [visitObjs, childVisit, show Nat.testBit 1 0 = true from rfl,
    show Nat.testBit 1 1 = false from rfl, show Nat.testBit 1 2 = false from rfl,
    show Nat.testBit 1 3 = false from rfl]

/-- `CreateQuadtree`: the root constructor.  The variadic initial objects
become the `m_Objects` list; `Level` is the zero value of the Go struct,
`m_curLife` is `-1` and `m_maxLifespan` is `64`. -/
def CreateQuadtree (bounds : Bounds) (maxObjectsBeforeSplit maxLevelsToSplit : Int)
    (physicalObjects : List PhysicalObject) : Quadtree :=
  .node bounds maxObjectsBeforeSplit maxLevelsToSplit 0 physicalObjects
    none none none none 0 (-1) 64

/-- `createSubtree`: a child node copies the parent's thresholds, has
level `parent.Level + 1`, and is otherwise a fresh `CreateQuadtree`
(so `m_curLife = -1`, `m_maxLifespan = 64`).  The Go parent pointer has no
counterpart in the value model. -/
def createSubtree (qt : Quadtree) (bounds : Bounds) (physicals : List PhysicalObject) :
    Quadtree :=
  .node bounds qt.maxObjects qt.maxLevels (qt.level + 1) physicals
    none none none none 0 (-1) 64

/-- Lines 164–182 of `Update`: the lifespan-accounting step.  It reads
only `m_Objects.Len()`, `m_ActiveNodes`, `m_curLife` and `m_maxLifespan`
of the node and writes only `m_curLife` and `m_maxLifespan`; no later step
of `Update` touches those two fields of the same node, so this function is
exactly how one `Update` call evolves them. -/
def updateLifeStep : Quadtree → Quadtree
  | .node b mo ml lv objs c0 c1 c2 c3 mask cl mls =>
    if objs.length = 0 then
      if mask = 0 then
        if cl = -1 then
          .node b mo ml lv objs c0 c1 c2 c3 mask (mls - 1) mls
        else if cl > 0 then
          .node b mo ml lv objs c0 c1 c2 c3 mask (cl - 1) mls
        else
          .node b mo ml lv objs c0 c1 c2 c3 mask cl mls
      else
        .node b mo ml lv objs c0 c1 c2 c3 mask cl mls
    else
      if cl ≠ -1 then
        .node b mo ml lv objs c0 c1 c2 c3 mask (-1) (if mls ≤ 64 then mls * 2 else mls)
      else
        .node b mo ml lv objs c0 c1 c2 c3 mask cl mls

/-- The four candidate child bounds computed by `Build` (and the `switch`
in `Insert`): quadrant `i` of a parent bounds, `0` = top left, `1` = top
right, `2` = bottom left, `3` = bottom right. -/
def subBounds (b : Bounds) : Fin 4 → Bounds
  | 0 => ⟨b.x, b.y, b.width / 2, b.height / 2⟩
  | 1 => ⟨b.x + b.width / 2, b.y, b.width / 2, b.height / 2⟩
  | 2 => ⟨b.x, b.y + b.height / 2, b.width / 2, b.height / 2⟩
  | 3 => ⟨b.x + b.width / 2, b.y + b.height / 2, b.width / 2, b.height / 2⟩

/-- `Build`.  If the object count is at most `MaxObjects`, or the level
has reached `MaxLevels`, it returns without change.  Otherwise every
object whose `quadIndex` is not `-1` is moved into the bucket of its
quadrant (`List.filter` keeps the source order of the delisting loop), a
fresh subtree is created for each nonempty bucket — replacing whatever
was in that slot — its `m_ActiveNodes` bit is set, and `Build` recurses
into each fresh subtree.  Recursion terminates because a fresh subtree is
one level closer to `MaxLevels`. -/
def Build (q : Quadtree) : Quadtree :=
  match q with
  | .node b mo ml lv objs c0 c1 c2 c3 mask cl mls =>
    if (objs.length : Int) ≤ mo ∨ ml ≤ lv then
      .node b mo ml lv objs c0 c1 c2 c3 mask cl mls
    else
      let keep := objs.filter (fun o => quadIndex b o = -1)
      let b0 := objs.filter (fun o => quadIndex b o = 0)
      let b1 := objs.filter (fun o => quadIndex b o = 1)
      let b2 := objs.filter (fun o => quadIndex b o = 2)
      let b3 := objs.filter (fun o => quadIndex b o = 3)
      let c0' := if b0.isEmpty then c0 else
        some (Build (.node (subBounds b 0) mo ml (lv + 1) b0 none none none none 0 (-1) 64))
      let c1' := if b1.isEmpty then c1 else
        some (Build (.node (subBounds b 1) mo ml (lv + 1) b1 none none none none 0 (-1) 64))
      let c2' := if b2.isEmpty then c2 else
        some (Build (.node (subBounds b 2) mo ml (lv + 1) b2 none none none none 0 (-1) 64))
      let c3' := if b3.isEmpty then c3 else
        some (Build (.node (subBounds b 3) mo ml (lv + 1) b3 none none none none 0 (-1) 64))
      let mask' := mask
        ||| (if b0.isEmpty then 0 else 1) ||| (if b1.isEmpty then 0 else 2)
        ||| (if b2.isEmpty then 0 else 4) ||| (if b3.isEmpty then 0 else 8)
      .node b mo ml lv keep c0' c1' c2' c3' mask' cl mls
termination_by (q.maxLevels - q.level).toNat
decreasing_by
  all_goals simp [Quadtree.maxLevels, Quadtree.level]; omega

/-- `m_Objects.PushBack(physical)`: append one object to the node's list,
all other fields unchanged. -/
def pushObject (q : Quadtree) (physical : PhysicalObject) : Quadtree :=
  match q with
  | .node b mo ml lv objs c0 c1 c2 c3 mask cl mls =>
    .node b mo ml lv (objs ++ [physical]) c0 c1 c2 c3 mask cl mls

/-- The `m_ActiveNodes == 0` branch of `Insert` (lines 262–273): push the
object onto `m_Objects`; if the list length is below `MaxObjects` or the
level equals `MaxLevels`, nothing more, otherwise call `Build`. -/
def insertLeaf (q : Quadtree) (physical : PhysicalObject) : Quadtree :=
  match q with
  | .node b mo ml lv objs c0 c1 c2 c3 mask cl mls =>
    let q' := Quadtree.node b mo ml lv (objs ++ [physical]) c0 c1 c2 c3 mask cl mls
    if (objs.length + 1 : Int) < mo ∨ lv = ml then q' else Build q'

/-- `Insert`.  When `m_ActiveNodes == 0` this is the leaf branch
(`insertLeaf`).  Otherwise the object is classified; index `-1` pushes it
onto this node's list, and otherwise it is inserted into the child of that
quadrant, creating the child (an empty `createSubtree`, whose recursive
`Insert` immediately takes the leaf branch — inlined here as
`insertLeaf`) and setting its mask bit when the bit is clear.  A set mask
bit with an empty slot would be a nil dereference in the source; the model
returns the node unchanged there. -/
def Quadtree.Insert (q : Quadtree) (physical : PhysicalObject) : Quadtree :=
  match q with
  | .node b mo ml lv objs c0 c1 c2 c3 mask cl mls =>
    if mask = 0 then
      insertLeaf (.node b mo ml lv objs c0 c1 c2 c3 mask cl mls) physical
    else
      let index := quadIndex b physical
      if index = -1 then
        .node b mo ml lv (objs ++ [physical]) c0 c1 c2 c3 mask cl mls
      else if index = 0 then
        if mask &&& 1 = 0 then
          .node b mo ml lv objs
            (some (insertLeaf (createSubtree (.node b mo ml lv objs c0 c1 c2 c3 mask cl mls)
              (subBounds b 0) []) physical)) c1 c2 c3 (mask ||| 1) cl mls
        else match c0 with
          | some t => .node b mo ml lv objs (some (Quadtree.Insert t physical)) c1 c2 c3 mask cl mls
          | none => .node b mo ml lv objs c0 c1 c2 c3 mask cl mls
      else if index = 1 then
        if mask &&& 2 = 0 then
          .node b mo ml lv objs c0
            (some (insertLeaf (createSubtree (.node b mo ml lv objs c0 c1 c2 c3 mask cl mls)
              (subBounds b 1) []) physical)) c2 c3 (mask ||| 2) cl mls
        else match c1 with
          | some t => .node b mo ml lv objs c0 (some (Quadtree.Insert t physical)) c2 c3 mask cl mls
          | none => .node b mo ml lv objs c0 c1 c2 c3 mask cl mls
      else if index = 2 then
        if mask &&& 4 = 0 then
          .node b mo ml lv objs c0 c1
            (some (insertLeaf (createSubtree (.node b mo ml lv objs c0 c1 c2 c3 mask cl mls)
              (subBounds b 2) []) physical)) c3 (mask ||| 4) cl mls
        else match c2 with
          | some t => .node b mo ml lv objs c0 c1 (some (Quadtree.Insert t physical)) c3 mask cl mls
          | none => .node b mo ml lv objs c0 c1 c2 c3 mask cl mls
      else
        if mask &&& 8 = 0 then
          .node b mo ml lv objs c0 c1 c2
            (some (insertLeaf (createSubtree (.node b mo ml lv objs c0 c1 c2 c3 mask cl mls)
              (subBounds b 3) []) physical)) (mask ||| 8) cl mls
        else match c3 with
          | some t => .node b mo ml lv objs c0 c1 c2 (some (Quadtree.Insert t physical)) mask cl mls
          | none => .node b mo ml lv objs c0 c1 c2 c3 mask cl mls

/-- First guard of `Build`: at or below `MaxObjects`, or at or beyond
`MaxLevels`, `Build` returns the node unchanged. -/
theorem Build_eq_self (q : Quadtree)
    (h : (q.mObjects.length : Int) ≤ q.maxObjects ∨ q.maxLevels ≤ q.level) :
    Build q = q := by
  match q with
  | .node b mo ml lv objs c0 c1 c2 c3 mask cl mls =>
    simp only [Quadtree.mObjects, Quadtree.maxObjects, Quadtree.maxLevels,
      Quadtree.level] at h
    rw [Build, if_pos h]

/-- Claim C1: the spec's classification requires `O.Y + O.Height ≤
node.Y + node.Height` for a bottom quadrant, but the source compares
against `node.Height` alone; on a node whose bounds have negative origin
the code files an object into the bottom-left child (index 2) although
the object extends below the node, where the spec's classification says
`-1`. -/
theorem claim_quadrant_classification_bug :
    quadIndex ⟨0, -4, 4, 4⟩ ⟨1, 0, -1, 1, 2⟩ = 2 ∧
    ¬((⟨1, 0, -1, 1, 2⟩ : PhysicalObject).y + (⟨1, 0, -1, 1, 2⟩ : PhysicalObject).height
        ≤ (⟨0, -4, 4, 4⟩ : Bounds).y + (⟨0, -4, 4, 4⟩ : Bounds).height) ∧
    specQuadIndex ⟨0, -4, 4, 4⟩ ⟨1, 0, -1, 1, 2⟩ = -1 := by
  refine ⟨by norm_num [quadIndex], by norm_num, by norm_num [specQuadIndex]⟩

/-- Claim C2: for a node with no direct objects and no active children at
the start of the lifespan step, `m_curLife = -1` becomes
`m_maxLifespan - 1`, a positive `m_curLife` decreases by one, and a zero
`m_curLife` stays zero; a fresh node has `m_curLife = -1` and
`m_maxLifespan = 64`, so its first arming yields `63`. -/
theorem claim_lifespan_arming (q : Quadtree) (b : Bounds) (mo ml : Int)
    (hobj : q.mObjects = []) (hmask : q.mActiveNodes = 0) :
    ((q.mCurLife = -1 → (updateLifeStep q).mCurLife = q.mMaxLifespan - 1) ∧
     (0 < q.mCurLife → (updateLifeStep q).mCurLife = q.mCurLife - 1) ∧
     (q.mCurLife = 0 → (updateLifeStep q).mCurLife = 0)) ∧
    (CreateQuadtree b mo ml []).mCurLife = -1 ∧
    (CreateQuadtree b mo ml []).mMaxLifespan = 64 ∧
    (updateLifeStep (CreateQuadtree b mo ml [])).mCurLife = 63 := by
  match q with
  | .node bb mo' ml' lv objs c0 c1 c2 c3 mask cl mls =>
    simp only [Quadtree.mObjects, Quadtree.mActiveNodes] at hobj hmask
    subst hobj hmask
    refine ⟨⟨?_, ?_, ?_⟩, rfl, rfl, by norm_num [updateLifeStep, CreateQuadtree, Quadtree.mCurLife]⟩
    · intro h
      subst h
      simp [updateLifeStep, Quadtree.mCurLife, Quadtree.mMaxLifespan]
    · intro h
      simp only [Quadtree.mCurLife] at h
      have h' : cl ≠ -1 := by omega
      simp [updateLifeStep, Quadtree.mCurLife, h', h]
    · intro h
      simp only [Quadtree.mCurLife] at h
      subst h
      simp [updateLifeStep, Quadtree.mCurLife]

/-- Witness for `claim_lifespan_arming` at a concrete counting-down node
and a concrete fresh node. -/
theorem claim_lifespan_arming_witness :
    (updateLifeStep (.node ⟨0,0,1,1⟩ 1 1 0 [] none none none none 0 5 64)).mCurLife = 4 ∧
    (updateLifeStep (CreateQuadtree ⟨0,0,1,1⟩ 1 1 [])).mCurLife = 63 :=
  ⟨(claim_lifespan_arming (.node ⟨0,0,1,1⟩ 1 1 0 [] none none none none 0 5 64)
      ⟨0,0,1,1⟩ 1 1 rfl rfl).1.2.1 (by decide),
   (claim_lifespan_arming (.node ⟨0,0,1,1⟩ 1 1 0 [] none none none none 0 5 64)
      ⟨0,0,1,1⟩ 1 1 rfl rfl).2.2.2⟩

/-- A node with zero direct objects, one active child, and an armed
countdown (`m_curLife = 5`): the configuration on which claim C3 fails. -/
def rescueCex : Quadtree :=
  .node ⟨0,0,2,2⟩ 1 10 0 []
    (some (.node ⟨0,0,1,1⟩ 1 10 1 [] none none none none 0 3 64)) none none none 1 5 64

/-- Counterexample to claim C3: this node has an active child and
`m_curLife = 5 ≠ -1`, yet the lifespan step leaves `m_curLife` at `5`
(the claim says the rescue fires, setting it to `-1` and doubling
`m_maxLifespan`), because the source's rescue branch runs only when
`m_Objects.Len() != 0`. -/
theorem claim_rescue_counterexample :
    rescueCex.mObjects = [] ∧ rescueCex.mActiveNodes ≠ 0 ∧ rescueCex.mCurLife = 5 ∧
    (updateLifeStep rescueCex).mCurLife = 5 ∧
    (updateLifeStep rescueCex).mMaxLifespan = 64 := by
  refine ⟨rfl, by decide, rfl, ?_, ?_⟩ <;>
    simp [rescueCex, updateLifeStep, Quadtree.mCurLife, Quadtree.mMaxLifespan]

/-- Claim C3 amended: the rescue fires exactly when the node has at least
one direct object (and `m_curLife ≠ -1`): `m_maxLifespan` doubles when at
most 64 and `m_curLife` becomes `-1`.  A node with zero direct objects
but active children is left entirely unchanged by the lifespan step. -/
theorem claim_rescue_amended (q : Quadtree) :
    (q.mObjects ≠ [] → q.mCurLife ≠ -1 →
      (updateLifeStep q).mCurLife = -1 ∧
      (q.mMaxLifespan ≤ 64 → (updateLifeStep q).mMaxLifespan = q.mMaxLifespan * 2) ∧
      (64 < q.mMaxLifespan → (updateLifeStep q).mMaxLifespan = q.mMaxLifespan)) ∧
    (q.mObjects = [] → q.mActiveNodes ≠ 0 → updateLifeStep q = q) := by
  match q with
  | .node b mo ml lv objs c0 c1 c2 c3 mask cl mls =>
    constructor
    · intro hobj hcl
      simp only [Quadtree.mObjects] at hobj
      have hlen : objs.length ≠ 0 := by simpa using hobj
      simp only [Quadtree.mCurLife] at hcl
      simp only [updateLifeStep, if_neg hlen, if_pos hcl, Quadtree.mCurLife,
        Quadtree.mMaxLifespan]
      refine ⟨by trivial, ?_, ?_⟩
      · intro h; rw [if_pos h]
      · intro h; rw [if_neg (by omega)]
    · intro hobj hmask
      simp only [Quadtree.mObjects] at hobj
      subst hobj
      simp only [Quadtree.mActiveNodes] at hmask
      simp [updateLifeStep, hmask]

/-- Witness for `claim_rescue_amended`: a node holding one object with
`m_curLife = 7` is rescued (`m_curLife` becomes `-1`, `m_maxLifespan`
doubles to 128). -/
theorem claim_rescue_amended_witness :
    (updateLifeStep (.node ⟨0,0,1,1⟩ 1 1 0 [⟨1,0,0,1,1⟩] none none none none 0 7 64)).mCurLife = -1 ∧
    (updateLifeStep (.node ⟨0,0,1,1⟩ 1 1 0 [⟨1,0,0,1,1⟩] none none none none 0 7 64)).mMaxLifespan = 128 :=
  ⟨((claim_rescue_amended (.node ⟨0,0,1,1⟩ 1 1 0 [⟨1,0,0,1,1⟩] none none none none 0 7 64)).1
      (by decide) (by decide)).1,
   ((claim_rescue_amended (.node ⟨0,0,1,1⟩ 1 1 0 [⟨1,0,0,1,1⟩] none none none none 0 7 64)).1
      (by decide) (by decide)).2.1 (by decide)⟩

/-- Counterexample to claim C7's boundary sentence: two zero-width boxes
with coincident `x`; the `x` difference (`0`) equals the half-sum of the
widths (`0`), yet `Intersect` is true because the `A.X == B.X`
short-circuit consults only the vertical overlap. -/
theorem claim_intersect_touching_counterexample :
    Intersect ⟨1, 0, 0, 0, 2⟩ ⟨2, 0, 1, 0, 2⟩ = true ∧
    |(⟨1, 0, 0, 0, 2⟩ : PhysicalObject).x - (⟨2, 0, 1, 0, 2⟩ : PhysicalObject).x|
      = ((⟨1, 0, 0, 0, 2⟩ : PhysicalObject).width + (⟨2, 0, 1, 0, 2⟩ : PhysicalObject).width) / 2 := by
  constructor
  · norm_num [Intersect]
  · norm_num

/-- Claim C7 amended: the three-way case analysis of `Intersect` is
exactly as claimed, and an edge-touching pair does not intersect provided
the touching half-sum is positive (for degenerate zero-extent boxes with
coincident coordinates the touching axis may be short-circuited away;
see the counterexample). -/
theorem claim_intersect_spec_amended (one another : PhysicalObject) :
    (one.x = another.x →
      (Intersect one another = true ↔
        |one.y - another.y| < (one.height + another.height) / 2)) ∧
    (one.x ≠ another.x → one.y = another.y →
      (Intersect one another = true ↔
        |one.x - another.x| < (one.width + another.width) / 2)) ∧
    (one.x ≠ another.x → one.y ≠ another.y →
      (Intersect one another = true ↔
        (|one.y - another.y| < (one.height + another.height) / 2 ∧
         |one.x - another.x| < (one.width + another.width) / 2))) ∧
    (|one.x - another.x| = (one.width + another.width) / 2 →
      0 < (one.width + another.width) / 2 → Intersect one another = false) ∧
    (|one.y - another.y| = (one.height + another.height) / 2 →
      0 < (one.height + another.height) / 2 → Intersect one another = false) := by
  refine ⟨?_, ?_, ?_, ?_, ?_⟩
  · intro hx; simp [Intersect, hx]
  · intro hx hy; simp [Intersect, hx, hy]
  · intro hx hy; simp [Intersect, hx, hy]
  · intro he hpos
    have hxne : one.x ≠ another.x := by
      intro h
      rw [h, sub_self, abs_zero] at he
      exact absurd he.symm (ne_of_gt hpos)
    have hlt : ¬ (|one.x - another.x| < (one.width + another.width) / 2) := by
      rw [he]; exact lt_irrefl _
    by_cases hy : one.y = another.y
    · simp [Intersect, hxne, hy, hlt]
    · simp [Intersect, hxne, hy, hlt]
  · intro he hpos
    have hlt : ¬ (|one.y - another.y| < (one.height + another.height) / 2) := by
      rw [he]; exact lt_irrefl _
    by_cases hx : one.x = another.x
    · simp [Intersect, hx, hlt]
    · by_cases hy : one.y = another.y
      · exfalso
        rw [hy, sub_self, abs_zero] at he
        exact absurd he.symm (ne_of_gt hpos)
      · simp [Intersect, hx, hy, hlt]

/-- Witness for `claim_intersect_spec_amended`: the coincident-`x`
short-circuit on overlapping unit-width boxes, and a genuinely touching
pair that does not intersect. -/
theorem claim_intersect_spec_amended_witness :
    (Intersect ⟨1, 0, 0, 2, 2⟩ ⟨2, 0, 1, 2, 2⟩ = true ↔ |(0 : ℚ) - 1| < (2 + 2) / 2) ∧
    Intersect ⟨1, 0, 0, 2, 2⟩ ⟨2, 2, 0, 2, 2⟩ = false :=
  ⟨(claim_intersect_spec_amended ⟨1, 0, 0, 2, 2⟩ ⟨2, 0, 1, 2, 2⟩).1 rfl,
   (claim_intersect_spec_amended ⟨1, 0, 0, 2, 2⟩ ⟨2, 2, 0, 2, 2⟩).2.2.2.1
     (by norm_num) (by norm_num)⟩

/-- On a node whose `m_ActiveNodes` is zero, `Insert` takes the leaf
branch. -/
theorem Insert_mask_zero (b : Bounds) (mo ml lv : Int) (objs : List PhysicalObject)
    (c0 c1 c2 c3 : Option Quadtree) (cl mls : Int) (o : PhysicalObject) :
    Quadtree.Insert (.node b mo ml lv objs c0 c1 c2 c3 0 cl mls) o
      = insertLeaf (.node b mo ml lv objs c0 c1 c2 c3 0 cl mls) o := by
  rw [Quadtree.Insert.eq_def]
  rfl

/-- `Build` with the subdivision guard passed, written out: straddlers
stay, each nonempty bucket replaces its child slot by a recursively built
fresh subtree and sets its mask bit. -/
theorem Build_subdivide (b : Bounds) (mo ml lv : Int) (objs : List PhysicalObject)
    (c0 c1 c2 c3 : Option Quadtree) (mask : Nat) (cl mls : Int)
    (h : ¬((objs.length : Int) ≤ mo ∨ ml ≤ lv)) :
    Build (.node b mo ml lv objs c0 c1 c2 c3 mask cl mls) =
      .node b mo ml lv (objs.filter (fun o => quadIndex b o = -1))
        (if (objs.filter (fun o => quadIndex b o = 0)).isEmpty then c0 else
          some (Build (.node (subBounds b 0) mo ml (lv + 1)
            (objs.filter (fun o => quadIndex b o = 0)) none none none none 0 (-1) 64)))
        (if (objs.filter (fun o => quadIndex b o = 1)).isEmpty then c1 else
          some (Build (.node (subBounds b 1) mo ml (lv + 1)
            (objs.filter (fun o => quadIndex b o = 1)) none none none none 0 (-1) 64)))
        (if (objs.filter (fun o => quadIndex b o = 2)).isEmpty then c2 else
          some (Build (.node (subBounds b 2) mo ml (lv + 1)
            (objs.filter (fun o => quadIndex b o = 2)) none none none none 0 (-1) 64)))
        (if (objs.filter (fun o => quadIndex b o = 3)).isEmpty then c3 else
          some (Build (.node (subBounds b 3) mo ml (lv + 1)
            (objs.filter (fun o => quadIndex b o = 3)) none none none none 0 (-1) 64)))
        (mask
          ||| (if (objs.filter (fun o => quadIndex b o = 0)).isEmpty then 0 else 1)
          ||| (if (objs.filter (fun o => quadIndex b o = 1)).isEmpty then 0 else 2)
          ||| (if (objs.filter (fun o => quadIndex b o = 2)).isEmpty then 0 else 4)
          ||| (if (objs.filter (fun o => quadIndex b o = 3)).isEmpty then 0 else 8))
        cl mls := by
  rw [Build, if_neg h]

/-- Claim C5: on a childless node (`m_ActiveNodes == 0`), `Insert`
appends the object and the result is append-then-`Build` exactly when the
new count exceeds `MaxObjects` with `Level < MaxLevels`, and the plain
append otherwise; the source's differently-phrased guard
(`Len < MaxObjects || Level == MaxLevels` skips `Build`) coincides
because `Build` itself refuses to subdivide at or below the thresholds. -/
theorem claim_insert_leaf_equiv (q : Quadtree) (o : PhysicalObject)
    (h : q.mActiveNodes = 0) :
    Quadtree.Insert q o =
      (if (q.mObjects.length + 1 : Int) > q.maxObjects ∧ q.level < q.maxLevels
        then Build (pushObject q o) else pushObject q o) ∧
    (pushObject q o).mObjects = q.mObjects ++ [o] ∧
    (pushObject q o).node0 = q.node0 ∧ (pushObject q o).node1 = q.node1 ∧
    (pushObject q o).node2 = q.node2 ∧ (pushObject q o).node3 = q.node3 ∧
    (pushObject q o).mActiveNodes = q.mActiveNodes := by
  match q with
  | .node b mo ml lv objs c0 c1 c2 c3 mask cl mls =>
    simp only [Quadtree.mActiveNodes] at h
    subst h
    refine ⟨?_, rfl, rfl, rfl, rfl, rfl, rfl⟩
    rw [Insert_mask_zero, insertLeaf]
    simp only [pushObject, Quadtree.mObjects, Quadtree.maxObjects, Quadtree.level,
      Quadtree.maxLevels]
    by_cases h1 : (objs.length + 1 : Int) > mo ∧ lv < ml
    · rw [if_neg (by omega), if_pos h1]
    · rw [if_neg h1]
      by_cases h2 : (objs.length + 1 : Int) < mo ∨ lv = ml
      · rw [if_pos h2]
      · rw [if_neg h2]
        apply Build_eq_self
        simp only [Quadtree.mObjects, Quadtree.maxObjects, Quadtree.maxLevels,
          Quadtree.level, List.length_append, List.length_cons, List.length_nil]
        omega

/-- Witness for `claim_insert_leaf_equiv`: inserting into a childless
node that reaches exactly `MaxObjects` leaves a plain append (the source
calls `Build`, which refuses to split). -/
theorem claim_insert_leaf_equiv_witness :
    Quadtree.Insert (.node ⟨0,0,2,2⟩ 2 5 0 [⟨1,0,0,1,1⟩] none none none none 0 (-1) 64) ⟨2,1,1,1,1⟩
      = (if ((1 + 1 : Int) > 2 ∧ (0 : Int) < 5)
          then Build (pushObject (.node ⟨0,0,2,2⟩ 2 5 0 [⟨1,0,0,1,1⟩] none none none none 0 (-1) 64) ⟨2,1,1,1,1⟩)
          else pushObject (.node ⟨0,0,2,2⟩ 2 5 0 [⟨1,0,0,1,1⟩] none none none none 0 (-1) 64) ⟨2,1,1,1,1⟩) :=
  (claim_insert_leaf_equiv (.node ⟨0,0,2,2⟩ 2 5 0 [⟨1,0,0,1,1⟩] none none none none 0 (-1) 64)
    ⟨2,1,1,1,1⟩ rfl).1

/-- Claim C9: `Build` is idempotent.  After a `Build`, every object left
directly at a node classifies to `-1`, so a second `Build` finds every
bucket empty, creates or replaces no child, and does not recurse. -/
theorem claim_build_idempotent (q : Quadtree) : Build (Build q) = Build q := by
  match q with
  | .node b mo ml lv objs c0 c1 c2 c3 mask cl mls =>
    by_cases h : ((objs.length : Int) ≤ mo ∨ ml ≤ lv)
    · have e : Build (Quadtree.node b mo ml lv objs c0 c1 c2 c3 mask cl mls)
          = Quadtree.node b mo ml lv objs c0 c1 c2 c3 mask cl mls :=
        Build_eq_self _ (by simpa [Quadtree.mObjects, Quadtree.maxObjects,
          Quadtree.maxLevels, Quadtree.level] using h)
      rw [e, e]
    · rw [Build_subdivide b mo ml lv objs c0 c1 c2 c3 mask cl mls h]
      by_cases h2 : (((objs.filter (fun o => quadIndex b o = -1)).length : Int) ≤ mo ∨ ml ≤ lv)
      · exact Build_eq_self _ (by simpa [Quadtree.mObjects, Quadtree.maxObjects,
          Quadtree.maxLevels, Quadtree.level] using h2)
      · rw [Build_subdivide _ _ _ _ _ _ _ _ _ _ _ _ h2]
        have hfil : ∀ i : Int, i ≠ -1 →
            (objs.filter (fun o => quadIndex b o = -1)).filter
              (fun o => quadIndex b o = i) = [] := by
          intro i hi
          rw [List.filter_filter]
          apply List.filter_eq_nil_iff.mpr
          intro o _
          simp only [Bool.and_eq_true, decide_eq_true_eq, not_and]
          intro hqi hq1
          omega
        have hkeep : (objs.filter (fun o => quadIndex b o = -1)).filter
            (fun o => quadIndex b o = -1) = objs.filter (fun o => quadIndex b o = -1) := by
          apply List.filter_eq_self.mpr
          intro o ho
          exact (List.mem_filter.mp ho).2
        rw [hkeep, hfil 0 (by norm_num), hfil 1 (by norm_num), hfil 2 (by norm_num),
          hfil 3 (by norm_num)]
        simp

/-- Inserting a first object into a fresh root appends it; the `Build`
the source triggers at the threshold refuses to split. -/
theorem c6_step1 :
    Quadtree.Insert (CreateQuadtree ⟨0, 0, 8, 8⟩ 1 10 []) ⟨1, 0, 4, 1, 1⟩
      = .node ⟨0, 0, 8, 8⟩ 1 10 0 [⟨1, 0, 4, 1, 1⟩] none none none none 0 (-1) 64 := by
  have h0 : CreateQuadtree ⟨0, 0, 8, 8⟩ 1 10 []
      = Quadtree.node ⟨0, 0, 8, 8⟩ 1 10 0 [] none none none none 0 (-1) 64 := rfl
  rw [h0, Insert_mask_zero, insertLeaf]
  rw [if_neg (by norm_num)]
  simp only [List.nil_append]
  exact Build_eq_self _ (by norm_num [Quadtree.mObjects, Quadtree.maxObjects,
    Quadtree.maxLevels, Quadtree.level])

/-- Building the bottom-left child of the 8×8 world with the two scenario
objects: object 1 descends into the grandchild, object 2 stays at the
child because the source's `bottomPart` compares against `Height = 4`
although the object (spanning `y ∈ [6,7]`) lies entirely inside the
child's bounds `y ∈ [4,8]`. -/
theorem c6_inner :
    Build (.node (subBounds ⟨0, 0, 8, 8⟩ 2) 1 10 1
        [⟨1, 0, 4, 1, 1⟩, ⟨2, 0, 6, 1, 1⟩] none none none none 0 (-1) 64)
      = .node ⟨0, 4, 4, 4⟩ 1 10 1 [⟨2, 0, 6, 1, 1⟩]
          (some (.node ⟨0, 4, 2, 2⟩ 1 10 2 [⟨1, 0, 4, 1, 1⟩] none none none none 0 (-1) 64))
          none none none 1 (-1) 64 := by
  have hsb : subBounds ⟨0, 0, 8, 8⟩ 2 = (⟨0, 4, 4, 4⟩ : Bounds) := by
    norm_num [subBounds]
  rw [hsb]
  rw [Build_subdivide _ _ _ _ _ _ _ _ _ _ _ _ (by norm_num)]
  have hA : quadIndex ⟨0, 4, 4, 4⟩ ⟨1, 0, 4, 1, 1⟩ = 0 := by norm_num [quadIndex]
  have hB : quadIndex ⟨0, 4, 4, 4⟩ ⟨2, 0, 6, 1, 1⟩ = -1 := by norm_num [quadIndex]
  simp only [List.filter, hA, hB]
  norm_num [subBounds]
  exact Build_eq_self _ (by norm_num [Quadtree.mObjects, Quadtree.maxObjects,
    Quadtree.maxLevels, Quadtree.level])

/-- Building the 8×8 root with both scenario objects: both classify to
quadrant 2 and the bottom-left subtree of `c6_inner` appears. -/
theorem c6_outer :
    Build (.node ⟨0, 0, 8, 8⟩ 1 10 0 [⟨1, 0, 4, 1, 1⟩, ⟨2, 0, 6, 1, 1⟩]
        none none none none 0 (-1) 64)
      = .node ⟨0, 0, 8, 8⟩ 1 10 0 []
          none none
          (some (.node ⟨0, 4, 4, 4⟩ 1 10 1 [⟨2, 0, 6, 1, 1⟩]
            (some (.node ⟨0, 4, 2, 2⟩ 1 10 2 [⟨1, 0, 4, 1, 1⟩] none none none none 0 (-1) 64))
            none none none 1 (-1) 64))
          none 4 (-1) 64 := by
  rw [Build_subdivide _ _ _ _ _ _ _ _ _ _ _ _ (by norm_num)]
  have hA : quadIndex ⟨0, 0, 8, 8⟩ ⟨1, 0, 4, 1, 1⟩ = 2 := by norm_num [quadIndex]
  have hB : quadIndex ⟨0, 0, 8, 8⟩ ⟨2, 0, 6, 1, 1⟩ = 2 := by norm_num [quadIndex]
  have hfm : List.filter (fun o => decide (quadIndex ⟨0, 0, 8, 8⟩ o = -1))
      [(⟨1, 0, 4, 1, 1⟩ : PhysicalObject), ⟨2, 0, 6, 1, 1⟩] = [] := by
    simp [List.filter, hA, hB]
  have hf0 : List.filter (fun o => decide (quadIndex ⟨0, 0, 8, 8⟩ o = 0))
      [(⟨1, 0, 4, 1, 1⟩ : PhysicalObject), ⟨2, 0, 6, 1, 1⟩] = [] := by
    simp [List.filter, hA, hB]
  have hf1 : List.filter (fun o => decide (quadIndex ⟨0, 0, 8, 8⟩ o = 1))
      [(⟨1, 0, 4, 1, 1⟩ : PhysicalObject), ⟨2, 0, 6, 1, 1⟩] = [] := by
    simp [List.filter, hA, hB]
  have hf2 : List.filter (fun o => decide (quadIndex ⟨0, 0, 8, 8⟩ o = 2))
      [(⟨1, 0, 4, 1, 1⟩ : PhysicalObject), ⟨2, 0, 6, 1, 1⟩]
      = [⟨1, 0, 4, 1, 1⟩, ⟨2, 0, 6, 1, 1⟩] := by
    simp [List.filter, hA, hB]
  have hf3 : List.filter (fun o => decide (quadIndex ⟨0, 0, 8, 8⟩ o = 3))
      [(⟨1, 0, 4, 1, 1⟩ : PhysicalObject), ⟨2, 0, 6, 1, 1⟩] = [] := by
    simp [List.filter, hA, hB]
  rw [hfm, hf0, hf1, hf2, hf3]
  norm_num
  rw [c6_inner]

/-- The full C6 scenario: two inserts into a fresh 8×8 world. -/
theorem c6_tree :
    Quadtree.Insert (Quadtree.Insert (CreateQuadtree ⟨0, 0, 8, 8⟩ 1 10 [])
        ⟨1, 0, 4, 1, 1⟩) ⟨2, 0, 6, 1, 1⟩
      = .node ⟨0, 0, 8, 8⟩ 1 10 0 []
          none none
          (some (.node ⟨0, 4, 4, 4⟩ 1 10 1 [⟨2, 0, 6, 1, 1⟩]
            (some (.node ⟨0, 4, 2, 2⟩ 1 10 2 [⟨1, 0, 4, 1, 1⟩] none none none none 0 (-1) 64))
            none none none 1 (-1) 64))
          none 4 (-1) 64 := by
  rw [c6_step1, Insert_mask_zero, insertLeaf]
  rw [if_neg (by norm_num)]
  simp only [List.cons_append, List.nil_append]
  exact c6_outer

/-- Claim C6 fails on the code: in the tree reached by two `Insert`
calls on a fresh root, the root's bottom-left child has an active child
(`m_ActiveNodes = 1`) yet directly stores the object `(0, 6, 1, 1)`,
whose §4.2 classification relative to that node's bounds `(0, 4, 4, 4)`
is quadrant 2, not `-1`. -/
theorem claim_nonleaf_straddle_bug :
    ((Quadtree.Insert (Quadtree.Insert (CreateQuadtree ⟨0, 0, 8, 8⟩ 1 10 [])
        ⟨1, 0, 4, 1, 1⟩) ⟨2, 0, 6, 1, 1⟩).node2).map
        (fun n => (n.bounds, n.mObjects, n.mActiveNodes))
      = some (⟨0, 4, 4, 4⟩, [⟨2, 0, 6, 1, 1⟩], 1) ∧
    specQuadIndex ⟨0, 4, 4, 4⟩ ⟨2, 0, 6, 1, 1⟩ = 2 := by
  rw [c6_tree]
  exact ⟨rfl, by norm_num [specQuadIndex]⟩

/-- The `IntersectionRecord` struct: one record per detected overlap. -/
structure IntersectionRecord where
  One : PhysicalObject
  Another : PhysicalObject
deriving DecidableEq, Repr

/-- The object loop of `GetIntersection` (lines 451–464): each object of
the node is checked against every object already in the potential set
(one record per overlap, in potential-set order) and then appended to the
potential set. -/
def giScan (intersections : List IntersectionRecord) (potentialObjects : List PhysicalObject) :
    List PhysicalObject → List IntersectionRecord × List PhysicalObject
  | [] => (intersections, potentialObjects)
  | one :: rest =>
    giScan
      (intersections ++ (potentialObjects.filter (fun p => Intersect p one)).map
        (fun objParent => ⟨objParent, one⟩))
      (potentialObjects ++ [one]) rest

mutual

/-- `GetIntersection` in state-passing style: the two caller-owned lists
are threaded through this node's object scan and then through the active
children in index order — the potential set is deliberately NOT restored
between siblings, exactly as in the source — and the third component is
the tree after the call.  The source's nil-list defaults are the caller
passing empty lists here. -/
def GetIntersection : Quadtree → List IntersectionRecord → List PhysicalObject →
    List IntersectionRecord × List PhysicalObject × Quadtree
  | .node b mo ml lv objs c0 c1 c2 c3 mask cl mls, intersections, potentialObjects =>
    let p := giScan intersections potentialObjects objs
    let s0 := giChild (mask.testBit 0) c0 p.1 p.2
    let s1 := giChild (mask.testBit 1) c1 s0.1 s0.2.1
    let s2 := giChild (mask.testBit 2) c2 s1.1 s1.2.1
    let s3 := giChild (mask.testBit 3) c3 s2.1 s2.2.1
    (s3.1, s3.2.1, .node b mo ml lv objs s0.2.2 s1.2.2 s2.2.2 s3.2.2 mask cl mls)
termination_by q _ _ => sizeOf q

/-- One child step of `GetIntersection`'s mask loop: recurse when the
mask bit is set and the slot is occupied (a set bit over an empty slot
would be a nil dereference in the source). -/
def giChild : Bool → Option Quadtree → List IntersectionRecord → List PhysicalObject →
    List IntersectionRecord × List PhysicalObject × Option Quadtree
  | true, some t, intersections, potentialObjects =>
    let r := GetIntersection t intersections potentialObjects
    (r.1, r.2.1, some r.2.2)
  | true, none, intersections, potentialObjects => (intersections, potentialObjects, none)
  | false, c, intersections, potentialObjects => (intersections, potentialObjects, c)
termination_by _ c _ _ => sizeOf c

end

mutual

/-- `Walk` in state-passing style: the objects the walker is invoked on,
in visit order (this node's list, then the active children in index
order), and the tree after the call. -/
def Walk : Quadtree → List PhysicalObject × Quadtree
  | .node b mo ml lv objs c0 c1 c2 c3 mask cl mls =>
    let s0 := walkChild (mask.testBit 0) c0
    let s1 := walkChild (mask.testBit 1) c1
    let s2 := walkChild (mask.testBit 2) c2
    let s3 := walkChild (mask.testBit 3) c3
    (objs ++ s0.1 ++ s1.1 ++ s2.1 ++ s3.1,
     .node b mo ml lv objs s0.2 s1.2 s2.2 s3.2 mask cl mls)
termination_by q => sizeOf q

/-- One child step of `Walk`'s mask loop. -/
def walkChild : Bool → Option Quadtree → List PhysicalObject × Option Quadtree
  | true, some t => let w := Walk t; (w.1, some w.2)
  | true, none => ([], none)
  | false, c => ([], c)
termination_by _ c => sizeOf c

end

mutual

/-- `FindObject` in state-passing style: the owning node (the source
returns a pointer; the model returns the subtree value), or `none`, plus
the tree after the call.  The node's own list is scanned first, then the
active children in index order, stopping at the first success. -/
def FindObject : Quadtree → PhysicalObject → Option Quadtree × Quadtree
  | .node b mo ml lv objs c0 c1 c2 c3 mask cl mls, target =>
    if target ∈ objs then
      (some (.node b mo ml lv objs c0 c1 c2 c3 mask cl mls),
       .node b mo ml lv objs c0 c1 c2 c3 mask cl mls)
    else
      let s0 := findChild (mask.testBit 0) c0 target
      if s0.1.isSome then (s0.1, .node b mo ml lv objs s0.2 c1 c2 c3 mask cl mls)
      else
        let s1 := findChild (mask.testBit 1) c1 target
        if s1.1.isSome then (s1.1, .node b mo ml lv objs s0.2 s1.2 c2 c3 mask cl mls)
        else
          let s2 := findChild (mask.testBit 2) c2 target
          if s2.1.isSome then (s2.1, .node b mo ml lv objs s0.2 s1.2 s2.2 c3 mask cl mls)
          else
            let s3 := findChild (mask.testBit 3) c3 target
            (s3.1, .node b mo ml lv objs s0.2 s1.2 s2.2 s3.2 mask cl mls)
termination_by q _ => sizeOf q

/-- One child step of `FindObject`'s mask loop. -/
def findChild : Bool → Option Quadtree → PhysicalObject → Option Quadtree × Option Quadtree
  | true, some t, target => let f := FindObject t target; (f.1, some f.2)
  | true, none, _ => (none, none)
  | false, c, _ => (none, c)
termination_by _ c _ => sizeOf c

end

mutual

/-- `Remove` in state-passing style: `true` and the tree with the first
matching element (by identity) deleted from this node's list, or the
first successful child in index order; otherwise `false` with the tree
unchanged. -/
def Remove : Quadtree → PhysicalObject → Bool × Quadtree
  | .node b mo ml lv objs c0 c1 c2 c3 mask cl mls, target =>
    if target ∈ objs then
      (true, .node b mo ml lv (objs.erase target) c0 c1 c2 c3 mask cl mls)
    else
      let s0 := removeChild (mask.testBit 0) c0 target
      if s0.1 then (true, .node b mo ml lv objs s0.2 c1 c2 c3 mask cl mls)
      else
        let s1 := removeChild (mask.testBit 1) c1 target
        if s1.1 then (true, .node b mo ml lv objs s0.2 s1.2 c2 c3 mask cl mls)
        else
          let s2 := removeChild (mask.testBit 2) c2 target
          if s2.1 then (true, .node b mo ml lv objs s0.2 s1.2 s2.2 c3 mask cl mls)
          else
            let s3 := removeChild (mask.testBit 3) c3 target
            (s3.1, .node b mo ml lv objs s0.2 s1.2 s2.2 s3.2 mask cl mls)
termination_by q _ => sizeOf q

/-- One child step of `Remove`'s mask loop. -/
def removeChild : Bool → Option Quadtree → PhysicalObject → Bool × Option Quadtree
  | true, some t, target => let r := Remove t target; (r.1, some r.2)
  | true, none, _ => (false, none)
  | false, c, _ => (false, c)
termination_by _ c _ => sizeOf c

end

mutual

/-- `GetIntersectedObjectsRaw` in state-passing style: append to the
accumulator every object of this node (other than the target) that
intersects the target, then continue through the active children in
index order; the second component is the tree after the call. -/
def GetIntersectedObjectsRaw : Quadtree → PhysicalObject → List PhysicalObject →
    List PhysicalObject × Quadtree
  | .node b mo ml lv objs c0 c1 c2 c3 mask cl mls, target, objects =>
    let here := objects ++ objs.filter (fun obj => !decide (obj = target) && Intersect target obj)
    let s0 := rawChild (mask.testBit 0) c0 target here
    let s1 := rawChild (mask.testBit 1) c1 target s0.1
    let s2 := rawChild (mask.testBit 2) c2 target s1.1
    let s3 := rawChild (mask.testBit 3) c3 target s2.1
    (s3.1, .node b mo ml lv objs s0.2 s1.2 s2.2 s3.2 mask cl mls)
termination_by q _ _ => sizeOf q

/-- One child step of `GetIntersectedObjectsRaw`'s mask loop. -/
def rawChild : Bool → Option Quadtree → PhysicalObject → List PhysicalObject →
    List PhysicalObject × Option Quadtree
  | true, some t, target, objects =>
    let r := GetIntersectedObjectsRaw t target objects
    (r.1, some r.2)
  | true, none, _, objects => (objects, none)
  | false, c, _, objects => (objects, c)
termination_by _ c _ _ => sizeOf c

end

mutual

/-- The locate-and-collect recursion behind `GetIntersectedObjects`.
The source finds the owner of the target with `FindObject`, then walks
the parent chain collecting each ancestor's intersecting objects (nearest
ancestor first) and finishes with `GetIntersectedObjectsRaw` on the
owner.  The value model has no parent pointers, so this transcription
locates the owner by the same preorder descent, collecting each
ancestor's contribution on the way down (`acc`, root first) and reversing
to the source's bottom-up order at the owner. -/
def giFind : Quadtree → PhysicalObject → List (List PhysicalObject) →
    Option (List PhysicalObject) × Quadtree
  | .node b mo ml lv objs c0 c1 c2 c3 mask cl mls, target, acc =>
    if target ∈ objs then
      let r := GetIntersectedObjectsRaw (.node b mo ml lv objs c0 c1 c2 c3 mask cl mls)
        target acc.reverse.flatten
      (some r.1, r.2)
    else
      let contrib := objs.filter (fun obj => !decide (obj = target) && Intersect target obj)
      let s0 := giFindChild (mask.testBit 0) c0 target (acc ++ [contrib])
      if s0.1.isSome then (s0.1, .node b mo ml lv objs s0.2 c1 c2 c3 mask cl mls)
      else
        let s1 := giFindChild (mask.testBit 1) c1 target (acc ++ [contrib])
        if s1.1.isSome then (s1.1, .node b mo ml lv objs s0.2 s1.2 c2 c3 mask cl mls)
        else
          let s2 := giFindChild (mask.testBit 2) c2 target (acc ++ [contrib])
          if s2.1.isSome then (s2.1, .node b mo ml lv objs s0.2 s1.2 s2.2 c3 mask cl mls)
          else
            let s3 := giFindChild (mask.testBit 3) c3 target (acc ++ [contrib])
            (s3.1, .node b mo ml lv objs s0.2 s1.2 s2.2 s3.2 mask cl mls)
termination_by q _ _ => sizeOf q

/-- One child step of `giFind`'s descent. -/
def giFindChild : Bool → Option Quadtree → PhysicalObject → List (List PhysicalObject) →
    Option (List PhysicalObject) × Option Quadtree
  | true, some t, target, acc => let r := giFind t target acc; (r.1, some r.2)
  | true, none, _, _ => (none, none)
  | false, c, _, _ => (none, c)
termination_by _ c _ _ => sizeOf c

end

/-- `GetIntersectedObjects` in state-passing style: empty result when the
target is not stored (the source returns nil). -/
def GetIntersectedObjects (qt : Quadtree) (target : PhysicalObject) :
    List PhysicalObject × Quadtree :=
  match giFind qt target [] with
  | (some objects, qt') => (objects, qt')
  | (none, qt') => ([], qt')

mutual

/-- The per-node object lists of a tree in visit order (this node's list,
then the active children in index order): the DFS skeleton that `Remove`
edits. -/
def walkNodes : Quadtree → List (List PhysicalObject)
  | .node _ _ _ _ objs c0 c1 c2 c3 mask _ _ =>
    objs :: (childWalkNodes (mask.testBit 0) c0 ++ childWalkNodes (mask.testBit 1) c1
      ++ childWalkNodes (mask.testBit 2) c2 ++ childWalkNodes (mask.testBit 3) c3)
termination_by q => sizeOf q

/-- Per-node object lists contributed by one child slot. -/
def childWalkNodes : Bool → Option Quadtree → List (List PhysicalObject)
  | true, some t => walkNodes t
  | true, none => []
  | false, _ => []
termination_by _ c => sizeOf c

end

mutual

/-- A tree with every node's object list blanked: the structure, bounds,
thresholds, mask and lifespan counters, independent of the objects. -/
def stripObjects : Quadtree → Quadtree
  | .node b mo ml lv _ c0 c1 c2 c3 mask cl mls =>
    .node b mo ml lv [] (stripChild c0) (stripChild c1) (stripChild c2) (stripChild c3)
      mask cl mls
termination_by q => sizeOf q

/-- `stripObjects` through one child slot. -/
def stripChild : Option Quadtree → Option Quadtree
  | some t => some (stripObjects t)
  | none => none
termination_by c => sizeOf c

end

/-- Delete the first occurrence of `t` from the first list that contains
it, leaving every other list untouched: what claim C8 says `Remove` does
to the per-node object lists. -/
def eraseNodeFirst (t : PhysicalObject) : List (List PhysicalObject) → List (List PhysicalObject)
  | [] => []
  | l :: ls => if t ∈ l then l.erase t :: ls else l :: eraseNodeFirst t ls

/-- The records the shared-potential-set scan emits while visiting `xs`
with potential set `pot`: each object is paired with every earlier
intersecting object (potential set first, in order). -/
def pairsAcc (pot : List PhysicalObject) : List PhysicalObject → List IntersectionRecord
  | [] => []
  | o :: rest =>
    (pot.filter (fun p => Intersect p o)).map (fun p => ⟨p, o⟩) ++ pairsAcc (pot ++ [o]) rest

/-- `Intersect` is symmetric. -/
theorem Intersect_comm (one another : PhysicalObject) :
    Intersect one another = Intersect another one := by
  simp only [Intersect]
  by_cases hx : one.x = another.x
  · rw [if_pos hx, if_pos hx.symm, abs_sub_comm one.y another.y,
      add_comm one.height another.height]
  · rw [if_neg hx, if_neg (Ne.symm hx)]
    by_cases hy : one.y = another.y
    · rw [if_pos hy, if_pos hy.symm, abs_sub_comm one.x another.x,
        add_comm one.width another.width]
    · rw [if_neg hy, if_neg (Ne.symm hy), abs_sub_comm one.y another.y,
        add_comm one.height another.height, abs_sub_comm one.x another.x,
        add_comm one.width another.width]

/-- The object loop of `GetIntersection` appends exactly the
`pairsAcc` records and the visited objects. -/
theorem giScan_spec (xs : List PhysicalObject) :
    ∀ ints pot, giScan ints pot xs = (ints ++ pairsAcc pot xs, pot ++ xs) := by
  induction xs with
  | nil => intro ints pot; rw [giScan, pairsAcc]; simp
  | cons o rest ih =>
    intro ints pot
    rw [giScan, pairsAcc, ih]
    simp [List.append_assoc]

/-- `pairsAcc` over a concatenation: the second part is scanned with the
first part already in the potential set. -/
theorem pairsAcc_append (xs : List PhysicalObject) :
    ∀ ys pot, pairsAcc pot (xs ++ ys) = pairsAcc pot xs ++ pairsAcc (pot ++ xs) ys := by
  induction xs with
  | nil => intro ys pot; simp [pairsAcc]
  | cons o rest ih =>
    intro ys pot
    rw [List.cons_append, pairsAcc, pairsAcc, ih]
    simp [List.append_assoc, List.singleton_append]

mutual

/-- `GetIntersection` appends the `pairsAcc` records of the visit order
to the record list, appends the visited objects to the potential set, and
leaves the tree unchanged. -/
theorem GetIntersection_spec (q : Quadtree) :
    ∀ ints pot, GetIntersection q ints pot
      = (ints ++ pairsAcc pot (visitObjs q), pot ++ visitObjs q, q) := by
  match q with
  | .node b mo ml lv objs c0 c1 c2 c3 mask cl mls =>
    intro ints pot
    rw [GetIntersection]
    simp only [giScan_spec, giChild_spec (mask.testBit 0) c0,
      giChild_spec (mask.testBit 1) c1, giChild_spec (mask.testBit 2) c2,
      giChild_spec (mask.testBit 3) c3, visitObjs]
    simp [pairsAcc_append, List.append_assoc]
termination_by sizeOf q

/-- One child step of `GetIntersection` through `childVisit`. -/
theorem giChild_spec (bit : Bool) (c : Option Quadtree) :
    ∀ ints pot, giChild bit c ints pot
      = (ints ++ pairsAcc pot (childVisit bit c), pot ++ childVisit bit c, c) := by
  match bit, c with
  | true, some t =>
    intro ints pot
    rw [giChild, GetIntersection_spec t]
    simp [childVisit]
  | true, none => intro ints pot; simp [giChild, childVisit, pairsAcc]
  | false, c => intro ints pot; simp [giChild, childVisit, pairsAcc]
termination_by sizeOf c

end

mutual

/-- `Walk` visits exactly the DFS object list and returns the tree
unchanged. -/
theorem Walk_spec (q : Quadtree) : Walk q = (visitObjs q, q) := by
  match q with
  | .node b mo ml lv objs c0 c1 c2 c3 mask cl mls =>
    rw [Walk]
    simp only [walkChild_spec (mask.testBit 0) c0, walkChild_spec (mask.testBit 1) c1,
      walkChild_spec (mask.testBit 2) c2, walkChild_spec (mask.testBit 3) c3, visitObjs]
termination_by sizeOf q

/-- One child step of `Walk` through `childVisit`. -/
theorem walkChild_spec (bit : Bool) (c : Option Quadtree) :
    walkChild bit c = (childVisit bit c, c) := by
  match bit, c with
  | true, some t => rw [walkChild, Walk_spec t]; simp [childVisit]
  | true, none => simp [walkChild, childVisit]
  | false, c => simp [walkChild, childVisit]
termination_by sizeOf c

end

mutual

/-- `FindObject` returns the tree unchanged. -/
theorem FindObject_frame (q : Quadtree) :
    ∀ target, (FindObject q target).2 = q := by
  match q with
  | .node b mo ml lv objs c0 c1 c2 c3 mask cl mls =>
    intro target
    rw [FindObject]
    by_cases h : target ∈ objs
    · rw [if_pos h]
    · rw [if_neg h]
      simp only [findChild_frame (mask.testBit 0) c0, findChild_frame (mask.testBit 1) c1,
        findChild_frame (mask.testBit 2) c2, findChild_frame (mask.testBit 3) c3]
      repeat' split
      all_goals rfl
termination_by sizeOf q

/-- One child step of `FindObject` leaves the slot unchanged. -/
theorem findChild_frame (bit : Bool) (c : Option Quadtree) :
    ∀ target, (findChild bit c target).2 = c := by
  match bit, c with
  | true, some t => intro target; rw [findChild]; simp [FindObject_frame t]
  | true, none => intro target; simp [findChild]
  | false, c => intro target; simp [findChild]
termination_by sizeOf c

end

mutual

/-- `GetIntersectedObjectsRaw` appends exactly the intersecting stored
objects (excluding the target itself), in visit order, and returns the
tree unchanged. -/
theorem Raw_spec (q : Quadtree) :
    ∀ target objects, GetIntersectedObjectsRaw q target objects
      = (objects ++ (visitObjs q).filter
          (fun obj => !decide (obj = target) && Intersect target obj), q) := by
  match q with
  | .node b mo ml lv objs c0 c1 c2 c3 mask cl mls =>
    intro target objects
    rw [GetIntersectedObjectsRaw]
    simp only [rawChild_spec (mask.testBit 0) c0, rawChild_spec (mask.testBit 1) c1,
      rawChild_spec (mask.testBit 2) c2, rawChild_spec (mask.testBit 3) c3, visitObjs]
    simp [List.filter_append, List.append_assoc]
termination_by sizeOf q

/-- One child step of `GetIntersectedObjectsRaw` through `childVisit`. -/
theorem rawChild_spec (bit : Bool) (c : Option Quadtree) :
    ∀ target objects, rawChild bit c target objects
      = (objects ++ (childVisit bit c).filter
          (fun obj => !decide (obj = target) && Intersect target obj), c) := by
  match bit, c with
  | true, some t =>
    intro target objects
    rw [rawChild, Raw_spec t]
    simp [childVisit]
  | true, none => intro target objects; simp [rawChild, childVisit]
  | false, c => intro target objects; simp [rawChild, childVisit]
termination_by sizeOf c

end

mutual

/-- The locate-and-collect descent returns the tree unchanged. -/
theorem giFind_frame (q : Quadtree) :
    ∀ target acc, (giFind q target acc).2 = q := by
  match q with
  | .node b mo ml lv objs c0 c1 c2 c3 mask cl mls =>
    intro target acc
    rw [giFind]
    by_cases h : target ∈ objs
    · rw [if_pos h]
      simp [Raw_spec]
    · rw [if_neg h]
      simp only [giFindChild_frame (mask.testBit 0) c0, giFindChild_frame (mask.testBit 1) c1,
        giFindChild_frame (mask.testBit 2) c2, giFindChild_frame (mask.testBit 3) c3]
      repeat' split
      all_goals rfl
termination_by sizeOf q

/-- One child step of the descent leaves the slot unchanged. -/
theorem giFindChild_frame (bit : Bool) (c : Option Quadtree) :
    ∀ target acc, (giFindChild bit c target acc).2 = c := by
  match bit, c with
  | true, some t => intro target acc; rw [giFindChild]; simp [giFind_frame t]
  | true, none => intro target acc; simp [giFindChild]
  | false, c => intro target acc; simp [giFindChild]
termination_by sizeOf c

end

/-- Claim C10: `FindObject`, `Walk`, `GetIntersectedObjects` (with its
helper `GetIntersectedObjectsRaw`) and `GetIntersection` leave every part
of the tree unchanged, and the two list-valued traversals only append to
the caller-supplied lists.  None of these functions contains a call to an
object's `Update` hook (no such call site exists in their source, and
none appears in this embedding). -/
theorem claim_queries_pure (q : Quadtree) (target : PhysicalObject)
    (ints : List IntersectionRecord) (pot objects : List PhysicalObject) :
    (Walk q).2 = q ∧
    (FindObject q target).2 = q ∧
    (GetIntersectedObjectsRaw q target objects).2 = q ∧
    (GetIntersectedObjects q target).2 = q ∧
    (GetIntersection q ints pot).2.2 = q ∧
    (∃ r, (GetIntersection q ints pot).1 = ints ++ r) ∧
    (∃ p, (GetIntersection q ints pot).2.1 = pot ++ p) ∧
    (∃ s, (GetIntersectedObjectsRaw q target objects).1 = objects ++ s) := by
  refine ⟨?_, FindObject_frame q target, ?_, ?_, ?_, ?_, ?_, ?_⟩
  · rw [Walk_spec]
  · rw [Raw_spec]
  · rw [GetIntersectedObjects]
    have h := giFind_frame q target []
    rcases hg : giFind q target [] with ⟨r, q'⟩
    rw [hg] at h
    cases r <;> simpa using h
  · rw [GetIntersection_spec]
  · exact ⟨_, by rw [GetIntersection_spec]⟩
  · exact ⟨_, by rw [GetIntersection_spec]⟩
  · exact ⟨_, by rw [Raw_spec]⟩

/-- In a duplicate-free list the predicate "equals `A`" holds exactly
once iff `A` is present. -/
theorem countP_decide_single (A : PhysicalObject) :
    ∀ pot : List PhysicalObject, pot.Nodup →
      pot.countP (fun p => decide (p = A)) = if A ∈ pot then 1 else 0 := by
  intro pot
  induction pot with
  | nil => simp
  | cons p ps ih =>
    intro hnd
    have hnd' := List.nodup_cons.mp hnd
    rw [List.countP_cons, ih hnd'.2]
    by_cases hp : p = A
    · subst hp
      simp [hnd'.1]
    · simp [hp, Ne.symm hp]

/-- Every record of a shared-potential scan pairs an earlier object with
a later one, the two intersect, and under global freedom from duplicates
they are distinct. -/
theorem pairsAcc_mem (xs : List PhysicalObject) :
    ∀ (pot : List PhysicalObject) (r : IntersectionRecord), r ∈ pairsAcc pot xs →
      r.One ∈ pot ++ xs ∧ r.Another ∈ xs ∧ Intersect r.One r.Another = true ∧
      ((pot ++ xs).Nodup → r.One ≠ r.Another) := by
  induction xs with
  | nil => intro pot r hr; simp [pairsAcc] at hr
  | cons o rest ih =>
    intro pot r hr
    rw [pairsAcc] at hr
    rcases List.mem_append.mp hr with hh | ht
    · rcases List.mem_map.mp hh with ⟨p, hp, rfl⟩
      have hpf := List.mem_filter.mp hp
      refine ⟨List.mem_append.mpr (Or.inl hpf.1), List.mem_cons_self o rest, hpf.2, ?_⟩
      intro hnd heq
      have heq' : p = o := heq
      have hdisj := List.disjoint_of_nodup_append hnd
      exact hdisj (heq' ▸ hpf.1) (List.mem_cons_self o rest)
    · have := ih (pot ++ [o]) r ht
      refine ⟨?_, List.mem_cons_of_mem o this.2.1, this.2.2.1, ?_⟩
      · have h1 := this.1
        rw [← List.append_cons] at h1
        exact h1
      · intro hnd
        exact this.2.2.2 (by rw [← List.append_cons]; exact hnd)

/-- In the records of a shared-potential scan of duplicate-free objects,
an unordered intersecting pair `{A, B}` is counted exactly once when it
is visible to the scan: one of the two already in the potential set and
the other in the scanned list, or both in the scanned list. -/
theorem pairsAcc_pair_count (A B : PhysicalObject) (hAB : A ≠ B)
    (hI : Intersect A B = true) :
    ∀ (xs pot : List PhysicalObject), (pot ++ xs).Nodup →
      (pairsAcc pot xs).countP
          (fun r => decide ((r.One = A ∧ r.Another = B) ∨ (r.One = B ∧ r.Another = A)))
        = if (A ∈ pot ∧ B ∈ xs) ∨ (B ∈ pot ∧ A ∈ xs) ∨ (A ∈ xs ∧ B ∈ xs)
            then 1 else 0 := by
  have hI2 : Intersect B A = true := by rw [Intersect_comm]; exact hI
  intro xs
  induction xs with
  | nil => intro pot h; simp [pairsAcc]
  | cons o rest ih =>
    intro pot hnd
    have hnd' : ((pot ++ [o]) ++ rest).Nodup := by rw [← List.append_cons]; exact hnd
    have hndpot : pot.Nodup := (List.nodup_append.mp hnd).1
    have hdisj := List.disjoint_of_nodup_append hnd
    have hocons := (List.nodup_append.mp hnd).2.1
    have horest : o ∉ rest := (List.nodup_cons.mp hocons).1
    have hopot : o ∉ pot := fun h => hdisj h (List.mem_cons_self o rest)
    rw [pairsAcc, List.countP_append, List.countP_map, ih (pot ++ [o]) hnd']
    by_cases hoB : o = B
    · subst hoB
      have hcong : ∀ p ∈ pot.filter (fun p => Intersect p o),
          ((fun r : IntersectionRecord =>
              decide ((r.One = A ∧ r.Another = o) ∨ (r.One = o ∧ r.Another = A)))
            ∘ (fun p => (⟨p, o⟩ : IntersectionRecord))) p = true
            ↔ (fun p => decide (p = A)) p = true := by
        intro p hp
        simp [Ne.symm hAB]
      rw [List.countP_congr hcong, countP_decide_single A _ (hndpot.filter _)]
      have hmemf : (A ∈ pot.filter (fun p => Intersect p o)) ↔ A ∈ pot := by
        simp [List.mem_filter, hI]
      rw [if_congr hmemf rfl rfl]
      simp only [List.mem_append, List.mem_singleton, List.mem_cons]
      by_cases h1 : A ∈ pot <;> by_cases h2 : A ∈ rest
      · exact (hdisj h1 (List.mem_cons_of_mem o h2)).elim
      · simp [h1, h2, horest, hopot, hAB]
      · simp [h1, h2, horest, hopot, hAB]
      · simp [h1, h2, horest, hopot, hAB]
    · by_cases hoA : o = A
      · subst hoA
        have hcong : ∀ p ∈ pot.filter (fun p => Intersect p o),
            ((fun r : IntersectionRecord =>
                decide ((r.One = o ∧ r.Another = B) ∨ (r.One = B ∧ r.Another = o)))
              ∘ (fun p => (⟨p, o⟩ : IntersectionRecord))) p = true
              ↔ (fun p => decide (p = B)) p = true := by
          intro p hp
          simp [hoB]
        rw [List.countP_congr hcong, countP_decide_single B _ (hndpot.filter _)]
        have hmemf : (B ∈ pot.filter (fun p => Intersect p o)) ↔ B ∈ pot := by
          simp [List.mem_filter, hI2]
        rw [if_congr hmemf rfl rfl]
        simp only [List.mem_append, List.mem_singleton, List.mem_cons]
        by_cases h1 : B ∈ pot <;> by_cases h2 : B ∈ rest
        · exact (hdisj h1 (List.mem_cons_of_mem o h2)).elim
        · simp [h1, h2, horest, hopot, hAB, Ne.symm hAB]
        · simp [h1, h2, horest, hopot, hAB, Ne.symm hAB]
        · simp [h1, h2, horest, hopot, hAB, Ne.symm hAB]
      · have hzero : (pot.filter (fun p => Intersect p o)).countP
            ((fun r : IntersectionRecord =>
                decide ((r.One = A ∧ r.Another = B) ∨ (r.One = B ∧ r.Another = A)))
              ∘ (fun p => (⟨p, o⟩ : IntersectionRecord))) = 0 := by
          apply List.countP_eq_zero.mpr
          intro p hp
          simp [hoA, hoB]
        rw [hzero]
        simp only [List.mem_append, List.mem_singleton, List.mem_cons]
        simp [Ne.symm hoA, Ne.symm hoB]

/-- Claim C4 amended (the unrestricted claim fails when the same object
is stored twice; see the counterexample): started with empty accumulator
and potential set, `GetIntersection` on a tree of pairwise-distinct
stored objects emits, for every unordered pair of distinct stored
objects that intersect, exactly one record (in either orientation), and
nothing else — even though the potential set is shared, unrestored,
across sibling subtrees. -/
theorem claim_get_intersection_pairs (q : Quadtree) (hnd : (visitObjs q).Nodup) :
    (∀ r ∈ (GetIntersection q [] []).1,
        r.One ∈ visitObjs q ∧ r.Another ∈ visitObjs q ∧ r.One ≠ r.Another ∧
        Intersect r.One r.Another = true) ∧
    (∀ A B : PhysicalObject, A ≠ B → A ∈ visitObjs q → B ∈ visitObjs q →
      Intersect A B = true →
      (GetIntersection q [] []).1.countP
          (fun r => decide ((r.One = A ∧ r.Another = B) ∨ (r.One = B ∧ r.Another = A)))
        = 1) := by
  rw [GetIntersection_spec]
  simp only [List.nil_append]
  constructor
  · intro r hr
    have h := pairsAcc_mem (visitObjs q) [] r (by simpa using hr)
    exact ⟨by simpa using h.1, h.2.1, h.2.2.2 (by simpa using hnd), h.2.2.1⟩
  · intro A B hAB hA hB hI
    have h := pairsAcc_pair_count A B hAB hI (visitObjs q) [] (by simpa using hnd)
    simpa [hA, hB] using h

/-- Witness for `claim_get_intersection_pairs`: a root holding two
overlapping boxes yields exactly one record for the pair. -/
theorem claim_get_intersection_pairs_witness :
    (GetIntersection (.node ⟨0,0,4,4⟩ 5 5 0 [⟨1,0,0,2,2⟩, ⟨2,1,0,2,2⟩]
        none none none none 0 (-1) 64) [] []).1.countP
        (fun r => decide ((r.One = (⟨1,0,0,2,2⟩ : PhysicalObject) ∧
            r.Another = (⟨2,1,0,2,2⟩ : PhysicalObject)) ∨
          (r.One = (⟨2,1,0,2,2⟩ : PhysicalObject) ∧
            r.Another = (⟨1,0,0,2,2⟩ : PhysicalObject)))) = 1 := by
  have hv : visitObjs (.node ⟨0,0,4,4⟩ 5 5 0 [⟨1,0,0,2,2⟩, ⟨2,1,0,2,2⟩]
      none none none none 0 (-1) 64) = [⟨1,0,0,2,2⟩, ⟨2,1,0,2,2⟩] := by
    norm_num [visitObjs, childVisit, show Nat.testBit 0 0 = false from rfl,
      show Nat.testBit 0 1 = false from rfl, show Nat.testBit 0 2 = false from rfl,
      show Nat.testBit 0 3 = false from rfl]
  exact (claim_get_intersection_pairs _ (by rw [hv]; decide)).2 _ _ (by decide)
    (by rw [hv]; decide) (by rw [hv]; decide) (by norm_num [Intersect])

mutual

/-- The DFS object list is the flattening of the per-node lists. -/
theorem visit_eq_flatten (q : Quadtree) : visitObjs q = (walkNodes q).flatten := by
  match q with
  | .node b mo ml lv objs c0 c1 c2 c3 mask cl mls =>
    rw [visitObjs, walkNodes, childVisit_eq_flatten (mask.testBit 0) c0,
      childVisit_eq_flatten (mask.testBit 1) c1, childVisit_eq_flatten (mask.testBit 2) c2,
      childVisit_eq_flatten (mask.testBit 3) c3]
    simp [List.flatten_append, List.append_assoc]
termination_by sizeOf q

/-- `childVisit` is the flattening of `childWalkNodes`. -/
theorem childVisit_eq_flatten (bit : Bool) (c : Option Quadtree) :
    childVisit bit c = (childWalkNodes bit c).flatten := by
  match bit, c with
  | true, some t => rw [childVisit, childWalkNodes, visit_eq_flatten t]
  | true, none => simp [childVisit, childWalkNodes]
  | false, c => simp [childVisit, childWalkNodes]
termination_by sizeOf c

end

/-- `eraseNodeFirst` acts on the first block of lists when the object
occurs there. -/
theorem eraseNodeFirst_append_left (t : PhysicalObject) :
    ∀ xs ys : List (List PhysicalObject), t ∈ xs.flatten →
      eraseNodeFirst t (xs ++ ys) = eraseNodeFirst t xs ++ ys := by
  intro xs
  induction xs with
  | nil => intro ys h; simp at h
  | cons l ls ih =>
    intro ys h
    rw [List.cons_append, eraseNodeFirst, eraseNodeFirst]
    by_cases hl : t ∈ l
    · rw [if_pos hl, if_pos hl, List.cons_append]
    · rw [if_neg hl, if_neg hl, List.cons_append, ih]
      simp only [List.flatten_cons, List.mem_append] at h
      exact h.resolve_left hl

/-- `eraseNodeFirst` skips a block of lists free of the object. -/
theorem eraseNodeFirst_append_right (t : PhysicalObject) :
    ∀ xs ys : List (List PhysicalObject), t ∉ xs.flatten →
      eraseNodeFirst t (xs ++ ys) = xs ++ eraseNodeFirst t ys := by
  intro xs
  induction xs with
  | nil => intro ys h; simp
  | cons l ls ih =>
    intro ys h
    simp only [List.flatten_cons, List.mem_append] at h
    push_neg at h
    rw [List.cons_append, eraseNodeFirst, if_neg h.1, List.cons_append, ih _ h.2]

mutual

/-- Full characterisation of `Remove`: it succeeds exactly when the
target is stored, a failed removal changes nothing, the tree's skeleton
(bounds, thresholds, children, mask, counters) is never changed, and a
successful removal deletes precisely the first occurrence in DFS order
from the per-node object lists. -/
theorem Remove_spec (q : Quadtree) : ∀ target : PhysicalObject,
    ((Remove q target).1 = true ↔ target ∈ visitObjs q) ∧
    (target ∉ visitObjs q → Remove q target = (false, q)) ∧
    stripObjects (Remove q target).2 = stripObjects q ∧
    (target ∈ visitObjs q →
      walkNodes (Remove q target).2 = eraseNodeFirst target (walkNodes q)) := by
  match q with
  | .node b mo ml lv objs c0 c1 c2 c3 mask cl mls =>
    intro target
    have H0 := removeChild_spec (mask.testBit 0) c0 target
    have H1 := removeChild_spec (mask.testBit 1) c1 target
    have H2 := removeChild_spec (mask.testBit 2) c2 target
    have H3 := removeChild_spec (mask.testBit 3) c3 target
    rw [Remove]
    by_cases h : target ∈ objs
    · rw [if_pos h]
      have hmem : target ∈ visitObjs (.node b mo ml lv objs c0 c1 c2 c3 mask cl mls) := by
        rw [visitObjs]
        exact List.mem_append_left _ (List.mem_append_left _ (List.mem_append_left _
          (List.mem_append_left _ h)))
      refine ⟨iff_of_true rfl hmem, fun hno => absurd hmem hno, ?_, ?_⟩
      · rw [stripObjects, stripObjects]
      · intro _
        rw [walkNodes, walkNodes, eraseNodeFirst, if_pos h]
    · rw [if_neg h]
      by_cases ht0 : target ∈ childVisit (mask.testBit 0) c0
      · have e0 : (removeChild (mask.testBit 0) c0 target).1 = true := H0.1.mpr ht0
        rw [if_pos e0]
        have hmem : target ∈ visitObjs (.node b mo ml lv objs c0 c1 c2 c3 mask cl mls) := by
          rw [visitObjs]
          exact List.mem_append_left _ (List.mem_append_left _ (List.mem_append_left _
            (List.mem_append_right _ ht0)))
        have hf0 : target ∈ (childWalkNodes (mask.testBit 0) c0).flatten := by
          rw [← childVisit_eq_flatten]
          exact ht0
        refine ⟨iff_of_true rfl hmem, fun hno => absurd hmem hno, ?_, ?_⟩
        · rw [stripObjects, stripObjects, H0.2.2.1]
        · intro _
          rw [walkNodes, walkNodes, eraseNodeFirst, if_neg h, H0.2.2.2 ht0]
          simp only [List.append_assoc]
          rw [eraseNodeFirst_append_left target _ _ hf0]
      · have e0 : ¬((removeChild (mask.testBit 0) c0 target).1 = true) := by
          rw [H0.2.1 ht0]
          exact Bool.false_ne_true
        have s0eq : (removeChild (mask.testBit 0) c0 target).2 = c0 := by
          rw [H0.2.1 ht0]
        have hf0 : target ∉ (childWalkNodes (mask.testBit 0) c0).flatten := by
          rw [← childVisit_eq_flatten]
          exact ht0
        rw [if_neg e0, s0eq]
        by_cases ht1 : target ∈ childVisit (mask.testBit 1) c1
        · have e1 : (removeChild (mask.testBit 1) c1 target).1 = true := H1.1.mpr ht1
          rw [if_pos e1]
          have hmem : target ∈ visitObjs (.node b mo ml lv objs c0 c1 c2 c3 mask cl mls) := by
            rw [visitObjs]
            exact List.mem_append_left _ (List.mem_append_left _ (List.mem_append_right _ ht1))
          have hf1 : target ∈ (childWalkNodes (mask.testBit 1) c1).flatten := by
            rw [← childVisit_eq_flatten]
            exact ht1
          refine ⟨iff_of_true rfl hmem, fun hno => absurd hmem hno, ?_, ?_⟩
          · rw [stripObjects, stripObjects, H1.2.2.1]
          · intro _
            rw [walkNodes, walkNodes, eraseNodeFirst, if_neg h, H1.2.2.2 ht1]
            simp only [List.append_assoc]
            rw [eraseNodeFirst_append_right target _ _ hf0,
              eraseNodeFirst_append_left target _ _ hf1]
        · have e1 : ¬((removeChild (mask.testBit 1) c1 target).1 = true) := by
            rw [H1.2.1 ht1]
            exact Bool.false_ne_true
          have s1eq : (removeChild (mask.testBit 1) c1 target).2 = c1 := by
            rw [H1.2.1 ht1]
          have hf1 : target ∉ (childWalkNodes (mask.testBit 1) c1).flatten := by
            rw [← childVisit_eq_flatten]
            exact ht1
          rw [if_neg e1, s1eq]
          by_cases ht2 : target ∈ childVisit (mask.testBit 2) c2
          · have e2 : (removeChild (mask.testBit 2) c2 target).1 = true := H2.1.mpr ht2
            rw [if_pos e2]
            have hmem : target ∈ visitObjs (.node b mo ml lv objs c0 c1 c2 c3 mask cl mls) := by
              rw [visitObjs]
              exact List.mem_append_left _ (List.mem_append_right _ ht2)
            have hf2 : target ∈ (childWalkNodes (mask.testBit 2) c2).flatten := by
              rw [← childVisit_eq_flatten]
              exact ht2
            refine ⟨iff_of_true rfl hmem, fun hno => absurd hmem hno, ?_, ?_⟩
            · rw [stripObjects, stripObjects, H2.2.2.1]
            · intro _
              rw [walkNodes, walkNodes, eraseNodeFirst, if_neg h, H2.2.2.2 ht2]
              simp only [List.append_assoc]
              rw [eraseNodeFirst_append_right target _ _ hf0,
                eraseNodeFirst_append_right target _ _ hf1,
                eraseNodeFirst_append_left target _ _ hf2]
          · have e2 : ¬((removeChild (mask.testBit 2) c2 target).1 = true) := by
              rw [H2.2.1 ht2]
              exact Bool.false_ne_true
            have s2eq : (removeChild (mask.testBit 2) c2 target).2 = c2 := by
              rw [H2.2.1 ht2]
            have hf2 : target ∉ (childWalkNodes (mask.testBit 2) c2).flatten := by
              rw [← childVisit_eq_flatten]
              exact ht2
            rw [if_neg e2, s2eq]
            by_cases ht3 : target ∈ childVisit (mask.testBit 3) c3
            · have e3 : (removeChild (mask.testBit 3) c3 target).1 = true := H3.1.mpr ht3
              have hmem : target ∈ visitObjs
                  (.node b mo ml lv objs c0 c1 c2 c3 mask cl mls) := by
                rw [visitObjs]
                exact List.mem_append_right _ ht3
              have hf3 : target ∈ (childWalkNodes (mask.testBit 3) c3).flatten := by
                rw [← childVisit_eq_flatten]
                exact ht3
              refine ⟨iff_of_true e3 hmem, fun hno => absurd hmem hno, ?_, ?_⟩
              · rw [stripObjects, stripObjects, H3.2.2.1]
              · intro _
                rw [walkNodes, walkNodes, eraseNodeFirst, if_neg h, H3.2.2.2 ht3]
                simp only [List.append_assoc]
                rw [eraseNodeFirst_append_right target _ _ hf0,
                  eraseNodeFirst_append_right target _ _ hf1,
                  eraseNodeFirst_append_right target _ _ hf2]
            · have s3all : removeChild (mask.testBit 3) c3 target = (false, c3) :=
                H3.2.1 ht3
              rw [s3all]
              have hvis : target ∉ visitObjs
                  (.node b mo ml lv objs c0 c1 c2 c3 mask cl mls) := by
                intro hm
                rw [visitObjs] at hm
                rcases List.mem_append.mp hm with hm | hm
                · rcases List.mem_append.mp hm with hm | hm
                  · rcases List.mem_append.mp hm with hm | hm
                    · rcases List.mem_append.mp hm with hm | hm
                      · exact h hm
                      · exact ht0 hm
                    · exact ht1 hm
                  · exact ht2 hm
                · exact ht3 hm
              exact ⟨iff_of_false Bool.false_ne_true hvis, fun _ => rfl, rfl,
                fun hin => absurd hin hvis⟩
termination_by sizeOf q

/-- `removeChild` characterised through `childVisit`, `stripChild` and
`childWalkNodes`. -/
theorem removeChild_spec (bit : Bool) (c : Option Quadtree) :
    ∀ target : PhysicalObject,
      ((removeChild bit c target).1 = true ↔ target ∈ childVisit bit c) ∧
      (target ∉ childVisit bit c → removeChild bit c target = (false, c)) ∧
      stripChild (removeChild bit c target).2 = stripChild c ∧
      (target ∈ childVisit bit c →
        childWalkNodes bit (removeChild bit c target).2
          = eraseNodeFirst target (childWalkNodes bit c)) := by
  match bit, c with
  | true, some t =>
    intro target
    have H := Remove_spec t target
    rw [removeChild]
    refine ⟨?_, ?_, ?_, ?_⟩
    · simpa [childVisit] using H.1
    · intro hno
      rw [H.2.1 (by simpa [childVisit] using hno)]
    · rcases hr : Remove t target with ⟨f, t2⟩
      rw [hr] at H
      have hs := H.2.2.1
      simp only [stripChild]
      simp [hs]
    · intro hin
      rcases hr : Remove t target with ⟨f, t2⟩
      rw [hr] at H
      simp only [childWalkNodes]
      exact H.2.2.2 (by simpa [childVisit] using hin)
  | true, none =>
    intro target
    simp [removeChild, childVisit, childWalkNodes, eraseNodeFirst]
  | false, c =>
    intro target
    simp [removeChild, childVisit, childWalkNodes, eraseNodeFirst]
termination_by sizeOf c

end

/-- Flattening after a first-occurrence node-level deletion is the
first-occurrence deletion of the flattening. -/
theorem flatten_eraseNodeFirst (t : PhysicalObject) :
    ∀ ls : List (List PhysicalObject),
      (eraseNodeFirst t ls).flatten = ls.flatten.erase t := by
  intro ls
  induction ls with
  | nil => rfl
  | cons l rest ih =>
    rw [eraseNodeFirst]
    by_cases hl : t ∈ l
    · rw [if_pos hl, List.flatten_cons, List.flatten_cons,
        List.erase_append_left _ hl]
    · rw [if_neg hl, List.flatten_cons, List.flatten_cons,
        List.erase_append_right _ hl, ih]

/-- Claim C8: `Remove` returns true exactly when the target (compared by
identity) is stored in the tree; on false the whole tree is unchanged; on
true the tree keeps its exact skeleton and counters (no child pruned, no
node created, no counter changed) and loses exactly one occurrence of the
target — the first encountered in depth-first order (each node's list
front to back, then the active children in index order). -/
theorem claim_remove_first_dfs (q : Quadtree) (target : PhysicalObject) :
    ((Remove q target).1 = true ↔ target ∈ visitObjs q) ∧
    ((Remove q target).1 = false → (Remove q target).2 = q) ∧
    stripObjects (Remove q target).2 = stripObjects q ∧
    ((Remove q target).1 = true →
      walkNodes (Remove q target).2 = eraseNodeFirst target (walkNodes q) ∧
      visitObjs (Remove q target).2 = (visitObjs q).erase target) := by
  have H := Remove_spec q target
  refine ⟨H.1, ?_, H.2.2.1, ?_⟩
  · intro hfalse
    have hnm : target ∉ visitObjs q := by
      intro hm
      rw [H.1.mpr hm] at hfalse
      exact Bool.noConfusion hfalse
    rw [H.2.1 hnm]
  · intro htrue
    have hm := H.1.mp htrue
    refine ⟨H.2.2.2 hm, ?_⟩
    rw [visit_eq_flatten, visit_eq_flatten, H.2.2.2 hm, flatten_eraseNodeFirst]

/-- Witness for `claim_remove_first_dfs`: removing a stored object from a
one-node tree succeeds and erases its first (only) occurrence. -/
theorem claim_remove_first_dfs_witness :
    (Remove (.node ⟨0,0,2,2⟩ 5 5 0 [⟨1,0,0,1,1⟩] none none none none 0 (-1) 64)
        ⟨1,0,0,1,1⟩).1 = true ∧
    visitObjs (Remove (.node ⟨0,0,2,2⟩ 5 5 0 [⟨1,0,0,1,1⟩] none none none none 0 (-1) 64)
        ⟨1,0,0,1,1⟩).2
      = (visitObjs (.node ⟨0,0,2,2⟩ 5 5 0 [⟨1,0,0,1,1⟩] none none none none 0 (-1) 64)).erase
          ⟨1,0,0,1,1⟩ := by
  have hv : visitObjs (.node ⟨0,0,2,2⟩ 5 5 0 [⟨1,0,0,1,1⟩] none none none none 0 (-1) 64)
      = [⟨1,0,0,1,1⟩] := by
    norm_num [visitObjs, childVisit, show Nat.testBit 0 0 = false from rfl,
      show Nat.testBit 0 1 = false from rfl, show Nat.testBit 0 2 = false from rfl,
      show Nat.testBit 0 3 = false from rfl]
  have hm : (⟨1,0,0,1,1⟩ : PhysicalObject) ∈ visitObjs
      (.node ⟨0,0,2,2⟩ 5 5 0 [⟨1,0,0,1,1⟩] none none none none 0 (-1) 64) := by
    rw [hv]
    exact List.mem_singleton_self _
  have ht := (claim_remove_first_dfs
      (.node ⟨0,0,2,2⟩ 5 5 0 [⟨1,0,0,1,1⟩] none none none none 0 (-1) 64) ⟨1,0,0,1,1⟩).1.mpr hm
  exact ⟨ht, ((claim_remove_first_dfs
      (.node ⟨0,0,2,2⟩ 5 5 0 [⟨1,0,0,1,1⟩] none none none none 0 (-1) 64)
      ⟨1,0,0,1,1⟩).2.2.2 ht).2⟩

/-- Counterexample to claim C4 as stated over every tree state: storing
the same object twice — reachable by inserting it twice — makes
`GetIntersection` (empty accumulator and potential set) emit the
self-record pairing the object with itself, which is not an unordered
pair of distinct stored objects. -/
theorem claim_get_intersection_pairs_counterexample :
    (GetIntersection (Quadtree.Insert (Quadtree.Insert (CreateQuadtree ⟨0,0,4,4⟩ 5 5 [])
        ⟨1,0,0,2,2⟩) ⟨1,0,0,2,2⟩) [] []).1
      = [⟨⟨1,0,0,2,2⟩, ⟨1,0,0,2,2⟩⟩] ∧
    (⟨⟨1,0,0,2,2⟩, ⟨1,0,0,2,2⟩⟩ : IntersectionRecord).One
      = (⟨⟨1,0,0,2,2⟩, ⟨1,0,0,2,2⟩⟩ : IntersectionRecord).Another := by
  refine ⟨?_, rfl⟩
  have h0 : CreateQuadtree ⟨0,0,4,4⟩ 5 5 []
      = Quadtree.node ⟨0,0,4,4⟩ 5 5 0 [] none none none none 0 (-1) 64 := rfl
  have h1 : Quadtree.Insert (CreateQuadtree ⟨0,0,4,4⟩ 5 5 []) ⟨1,0,0,2,2⟩
      = .node ⟨0,0,4,4⟩ 5 5 0 [⟨1,0,0,2,2⟩] none none none none 0 (-1) 64 := by
    rw [h0, Insert_mask_zero, insertLeaf, if_pos (Or.inl (by norm_num))]
    simp
  have h2 : Quadtree.Insert (Quadtree.Insert (CreateQuadtree ⟨0,0,4,4⟩ 5 5 [])
        ⟨1,0,0,2,2⟩) ⟨1,0,0,2,2⟩
      = .node ⟨0,0,4,4⟩ 5 5 0 [⟨1,0,0,2,2⟩, ⟨1,0,0,2,2⟩] none none none none 0 (-1) 64 := by
    rw [h1, Insert_mask_zero, insertLeaf, if_pos (Or.inl (by norm_num))]
    simp
  have hv : visitObjs (.node ⟨0,0,4,4⟩ 5 5 0 [⟨1,0,0,2,2⟩, ⟨1,0,0,2,2⟩]
      none none none none 0 (-1) 64) = [⟨1,0,0,2,2⟩, ⟨1,0,0,2,2⟩] := by
    norm_num [visitObjs, childVisit, show Nat.testBit 0 0 = false from rfl,
      show Nat.testBit 0 1 = false from rfl, show Nat.testBit 0 2 = false from rfl,
      show Nat.testBit 0 3 = false from rfl]
  rw [h2, GetIntersection_spec, hv]
  have hI : Intersect ⟨1,0,0,2,2⟩ ⟨1,0,0,2,2⟩ = true := by norm_num [Intersect]
  norm_num [pairsAcc, List.filter, hI]
